import Mathlib

/-!
Shallow embedding of the e2e cluster-convergence verifier
(`pkg/e2e/infra/utils.go` of openshift/cluster-api-actuator-pkg, vendored in
machine-api-operator), together with theorems settling the frozen claims.

The Kubernetes client is modelled as explicit inputs: each `client.List` /
`client.Get` / scale call is represented by the value it would have produced
(`Except`/`Option` for fallible reads).  A poll loop (`wait.PollImmediate`)
is modelled by the finite sequence of per-iteration inputs it would observe;
the length of that sequence is the iteration budget implied by the timeout.
-/

/-- A Kubernetes `ObjectReference` as used by `Machine.Status.NodeRef`:
only the namespace and name fields are consumed by the code. -/
structure NodeRef where
  nspace : String
  name : String
deriving DecidableEq, Repr

/-- A machine record: `Machine.Name` and the optional `Status.NodeRef`,
the only fields `utils.go` reads. -/
structure Machine where
  name : String
  statusNodeRef : Option NodeRef
deriving DecidableEq, Repr

/-- One entry of `Node.Status.Conditions` (`Type` and `Status` fields). -/
structure NodeCondition where
  condType : String
  status : String
deriving DecidableEq, Repr

/-- A node record: name, annotations (modelled as an association list,
Kubernetes annotation maps have unique keys), condition set and the
`Spec.Unschedulable` flag. -/
structure Node where
  name : String
  anns : List (String × String)
  conditions : List NodeCondition
  unschedulable : Bool
deriving DecidableEq, Repr

/-- The constant `controllernode.MachineAnnotationKey` of the vendored
cluster-api node controller (not under src/).  Modelled from the spec:
"optional annotation mapping the node to a namespaced machine identifier";
the claims do not depend on the concrete key string. -/
def machineAnnotationKey : String := "machine"

/-- Go map read with `ok` flag: `v, ok := m[k]`. -/
def lookupAnn (anns : List (String × String)) (k : String) : Option String :=
  (anns.find? (fun p => p.1 == k)).map (fun p => p.2)

/-- Go map read without `ok` flag: a missing key yields the zero value `""`.
Later insertions are consed to the front, so `find?` sees the newest binding,
matching Go map overwrite semantics. -/
def mapLookup (m : List (String × String)) (k : String) : String :=
  ((m.find? (fun p => p.1 == k)).map (fun p => p.2)).getD ""

/-- The `"%s/%s"` machine key `namespace/machineName` built by
`isOneMachinePerNode`. -/
def keyOf (ns name : String) : String := ns ++ "/" ++ name

/-- The first loop of `isOneMachinePerNode`: walk the node list in order,
return `none` (Go: `return false, nil`) at the first node missing the
machine annotation, otherwise accumulate the
`nodeNameToMachineAnnotation` map. -/
def buildNodeMapAux (acc : List (String × String)) : List Node → Option (List (String × String))
  | [] => some acc
  | n :: rest =>
    match lookupAnn n.anns machineAnnotationKey with
    | none => none
    | some v => buildNodeMapAux ((n.name, v) :: acc) rest

/-- The map `nodeNameToMachineAnnotation` built from the whole node list. -/
def buildNodeMap (nodes : List Node) : Option (List (String × String)) :=
  buildNodeMapAux [] nodes

/-- The second loop of `isOneMachinePerNode`: every machine must have a
non-nil `Status.NodeRef` and the node map entry for the referenced node name
must equal the machine's own `namespace/name` key; the first failure returns
`false`. -/
def machinesMatch (ns : String) (m : List (String × String)) : List Machine → Bool
  | [] => true
  | mach :: rest =>
    match mach.statusNodeRef with
    | none => false
    | some ref =>
      if mapLookup m ref.name ≠ keyOf ns mach.name then false
      else machinesMatch ns m rest

/-- One iteration of the `isOneMachinePerNode` poll predicate.  The two
`client.List` calls are modelled by their results (`none` = error, which the
code turns into a retry).  Then: count check, node-annotation loop, machine
loop. -/
def oneMachinePerNodeIter (ns : String)
    (machinesRead : Option (List Machine)) (nodesRead : Option (List Node)) : Bool :=
  match machinesRead with
  | none => false
  | some machines =>
    match nodesRead with
    | none => false
    | some nodes =>
      if machines.length ≠ nodes.length then false
      else
        match buildNodeMap nodes with
        | none => false
        | some m => machinesMatch ns m machines

/-- Outcome of `wait.PollImmediate`: the condition returned `true`
(`nil` error), the condition returned a non-nil error (propagated
immediately), or the deadline elapsed (`wait.ErrWaitTimeout`). -/
inductive PollResult where
  | success
  | fatal (e : String)
  | timeout
deriving DecidableEq, Repr

/-- Embeds `wait.PollImmediate` over the finite sequence of per-iteration condition
results the poll would observe before its deadline: the error is checked
first, then the boolean; an exhausted sequence is the timeout. -/
def pollImmediate : List (Bool × Option String) → PollResult
  | [] => .timeout
  | (ok, e) :: rest =>
    match e with
    | some err => .fatal err
    | none => if ok then .success else pollImmediate rest

/-- The message of `wait.ErrWaitTimeout`. -/
def timeoutMsg : String := "timed out waiting for the condition"

/-- The reads one `isOneMachinePerNode` iteration performs: the machine
list and the node list. -/
abbrev OMTick := Option (List Machine) × Option (List Node)

/-- The poll predicate of `isOneMachinePerNode`: every return path of the Go
closure is `(_, nil)` — failures are logged and retried, never fatal. -/
def oneMachinePerNodePred (ns : String) (t : OMTick) : Bool × Option String :=
  (oneMachinePerNodeIter ns t.1 t.2, none)

/-- Embeds `isOneMachinePerNode`: poll the iteration predicate; a poll error
(which can only be the timeout) is logged and collapsed to `false`. -/
def isOneMachinePerNode (ns : String) (ticks : List OMTick) : Bool :=
  match pollImmediate (ticks.map (oneMachinePerNodePred ns)) with
  | .success => true
  | .fatal _ => false
  | .timeout => false

/-- A machine-set record: name, optional desired replica count and the
observed ready/available counts (only logged by this code). -/
structure MachineSet where
  name : String
  specReplicas : Option Int
  readyReplicas : Int
  availableReplicas : Int
deriving DecidableEq, Repr

/-- Embeds `machineSetsSnapShotLogs`: logs all machine-sets; its only control
effect is turning a failed `GetMachineSets` read into a wrapped error. -/
def machineSetsSnapShotLogs (msRead : Except String (List MachineSet)) : Option String :=
  match msRead with
  | .error e => some ("error getting machines: " ++ e)
  | .ok _ => none

/-- Embeds `nodesSnapShotLogs`: logs all nodes; its only control effect is turning
a failed `GetNodes` read into a wrapped error. -/
def nodesSnapShotLogs (nodesRead : Except String (List Node)) : Option String :=
  match nodesRead with
  | .error e => some ("error getting nodes: " ++ e)
  | .ok _ => none

/-- Embeds `getClusterSize`: the number of nodes, or the wrapped read error. -/
def getClusterSize (nodesRead : Except String (List Node)) : Except String Nat :=
  match nodesRead with
  | .error e => .error ("error getting nodes: " ++ e)
  | .ok nodes => .ok nodes.length

instance {ε α : Type} [DecidableEq ε] [DecidableEq α] : DecidableEq (Except ε α) := fun a b =>
  match a, b with
  | .ok x, .ok y =>
    if h : x = y then .isTrue (by rw [h]) else .isFalse (by intro hc; cases hc; exact h rfl)
  | .error x, .error y =>
    if h : x = y then .isTrue (by rw [h]) else .isFalse (by intro hc; cases hc; exact h rfl)
  | .ok _, .error _ => .isFalse (by intro hc; cases hc)
  | .error _, .ok _ => .isFalse (by intro hc; cases hc)

/-- The three reads one iteration of the size poll inside
`waitForClusterSizeToBeHealthy` performs, in source order:
`machineSetsSnapShotLogs`, `nodesSnapShotLogs`, `getClusterSize`. -/
structure SizeTick where
  msRead : Except String (List MachineSet)
  nodesRead : Except String (List Node)
  sizeRead : Except String (List Node)
deriving DecidableEq, Repr

/-- The size-poll predicate of `waitForClusterSizeToBeHealthy`: each of the
three read failures is returned as `(false, err)` — a fatal poll error —
and only with all reads succeeding is the node count compared to the
target. -/
def sizeTickPred (targetSize : Nat) (t : SizeTick) : Bool × Option String :=
  match machineSetsSnapShotLogs t.msRead with
  | some e => (false, some e)
  | none =>
    match nodesSnapShotLogs t.nodesRead with
    | some e => (false, some e)
    | none =>
      match getClusterSize t.sizeRead with
      | .error e => (false, some e)
      | .ok n => (n == targetSize, none)

/-- The poll predicate of `waitUntilAllNodesAreSchedulable`: a failed node
list is retried (`(false, nil)`), any node with `Spec.Unschedulable` set
fails the iteration (`(false, nil)`), otherwise the iteration succeeds. -/
def schedTickPred (nodesRead : Except String (List Node)) : Bool × Option String :=
  match nodesRead with
  | .error _ => (false, none)
  | .ok nodes => (nodes.all (fun n => !n.unschedulable), none)

/-- Embeds `waitUntilAllNodesAreSchedulable`: the poll result is returned as the
function's error (`none` = success). -/
def waitUntilAllNodesAreSchedulable (ticks : List (Except String (List Node))) : Option String :=
  match pollImmediate (ticks.map schedTickPred) with
  | .success => none
  | .fatal e => some e
  | .timeout => some timeoutMsg

/-- Embeds `waitForClusterSizeToBeHealthy`.  Stage (a)/(b): the size poll (each
iteration logs the machine-set and node snapshots, then compares the node
count to the target); its error is wrapped in the size-stage message.
Stage (c): `e2e.WaitUntilAllNodesAreReady` lives in the e2e framework, not
under src/; it is modelled by its outcome `readyResult` (spec: "wait for
universal node readiness"), propagated unchanged.  Stage (d):
`waitUntilAllNodesAreSchedulable`, propagated unchanged.  Stage (e):
`isOneMachinePerNode`, whose `false` becomes the stage-specific error. -/
def waitForClusterSizeToBeHealthy (sizeTicks : List SizeTick)
    (readyResult : Option String) (schedTicks : List (Except String (List Node)))
    (omNs : String) (omTicks : List OMTick) (targetSize : Nat) : Option String :=
  match pollImmediate (sizeTicks.map (sizeTickPred targetSize)) with
  | .fatal e => some ("Did not reach expected number of nodes: " ++ e)
  | .timeout => some ("Did not reach expected number of nodes: " ++ timeoutMsg)
  | .success =>
    match readyResult with
    | some e => some e
    | none =>
      match waitUntilAllNodesAreSchedulable schedTicks with
      | some e => some e
      | none =>
        if isOneMachinePerNode omNs omTicks then none
        else some "One machine per node condition violated"

/-- The poll predicate of `deleteMachine`: a failed `client.Delete` call is
returned as `(false, err)` — a fatal poll error — and a successful call
ends the poll with `(true, nil)`.  Each tick is the delete call's result
(`none` = success). -/
def deleteMachinePred (r : Option String) : Bool × Option String :=
  match r with
  | some e => (false, some e)
  | none => (true, none)

/-- Embeds `deleteMachine`: the one-minute `wait.PollImmediate` around the delete
call, returning the poll result as the function's error. -/
def deleteMachine (ticks : List (Option String)) : Option String :=
  match pollImmediate (ticks.map deleteMachinePred) with
  | .success => none
  | .fatal e => some e
  | .timeout => some timeoutMsg

/-- The Kubernetes scale sub-resource as consumed here: identifying
metadata, `Spec.Replicas` and the status fields the update must not
disturb. -/
structure Scale where
  name : String
  nspace : String
  resourceVersion : String
  specReplicas : Int
  statusReplicas : Int
  statusSelector : String
deriving DecidableEq, Repr

/-- Go `int32(n)`: the wraparound conversion applied to the `replicas`
argument before it is stored in `Scale.Spec.Replicas`. -/
def int32ofInt (n : Int) : Int := (n + 2 ^ 31) % 2 ^ 32 - 2 ^ 31

/-- One client operation issued against the scale sub-resource. -/
inductive ScaleOp where
  | get (resource name : String)
  | update (resource : String) (s : Scale)
deriving DecidableEq, Repr

/-- Embeds `scaleMachineSet`: build the scale client, read the scale sub-resource,
deep-copy it, set `Spec.Replicas` to `int32(replicas)`, and update.  The
three fallible collaborators (`getScaleClient`, the get, the update) are
modelled by their results; the second component is the trace of operations
issued against the scale sub-resource. -/
def scaleMachineSet (clientR : Except String Unit) (getR : Except String Scale)
    (updR : Except String Scale) (name : String) (replicas : Int) :
    Option String × List ScaleOp :=
  match clientR with
  | .error e => (some ("error calling getScaleClient " ++ e), [])
  | .ok _ =>
    match getR with
    | .error e => (some ("error calling scaleClient.Scales get: " ++ e),
        [.get "MachineSet" name])
    | .ok sc =>
      let scaleUpdate := { sc with specReplicas := int32ofInt replicas }
      match updR with
      | .error e => (some ("error calling scaleClient.Scales update: " ++ e),
          [.get "MachineSet" name, .update "MachineSet" scaleUpdate])
      | .ok _ => (none, [.get "MachineSet" name, .update "MachineSet" scaleUpdate])

/-- Modelled from the spec: `e2e.IsNodeReady` lives in the e2e framework,
not under src/; the spec says the health evaluator "scans every node's
condition set for the canonical ready condition in true state". -/
def isNodeReady (n : Node) : Bool :=
  n.conditions.any (fun c => c.condType == "Ready" && c.status == "True")

/-- Embeds `nodesAreReady`: walk the node list, return `false` at the first node
that is not ready, `true` after the last. -/
def nodesAreReady : List Node → Bool
  | [] => true
  | n :: rest => if !(isNodeReady n) then false else nodesAreReady rest

/-- The helper `cache.SplitMetaNamespaceKey` of vendored client-go (not under src/).
Modelled from the spec: the annotation value is split into a
namespace/name pair, one-part keys having an empty namespace, and a value
that "cannot be split into namespace/name" (more than one slash) is an
error.  `splitOnSlash` is Go `strings.Split(key, "/")` on the character
list. -/
def splitOnSlash : List Char → List (List Char)
  | [] => [[]]
  | c :: rest =>
    if c = '/' then [] :: splitOnSlash rest
    else
      match splitOnSlash rest with
      | [] => [[c]]
      | h :: t => (c :: h) :: t

def splitMetaNamespaceKey (key : String) : Except String (String × String) :=
  match splitOnSlash key.data with
  | [name] => .ok ("", ⟨name⟩)
  | [nsp, name] => .ok (⟨nsp⟩, ⟨name⟩)
  | _ => .error ("unexpected key format: " ++ key)

/-- Embeds `getMachineFromNode`: read the machine annotation, split it, reject a
namespace other than the configured machine-API namespace, and only then
look the machine up by name (`getMachineR` models `e2e.GetMachine`).  The
second component records whether the machine lookup was attempted. -/
def getMachineFromNode (cfgNs : String) (getMachineR : String → Except String Machine)
    (node : Node) : Except String Machine × Bool :=
  match lookupAnn node.anns machineAnnotationKey with
  | none => (.error ("node " ++ node.name ++ " does not have a MachineAnnotationKey "
      ++ machineAnnotationKey), false)
  | some key =>
    match splitMetaNamespaceKey key with
    | .error e => (.error ("machine annotation format is incorrect " ++ key ++ ": " ++ e),
        false)
    | .ok (nsp, machineName) =>
      if nsp ≠ cfgNs then
        (.error ("Machine " ++ key ++ " is forbidden to live outside of default "
          ++ cfgNs ++ " namespace"), false)
      else
        match getMachineR machineName with
        | .error e => (.error ("error querying api for machine object: " ++ e), true)
        | .ok m => (.ok m, true)

/-- The cluster state `isOneMachinePerNode` reads: the machine list and the
node list of the machine-API namespace. -/
structure ClusterState where
  machines : List Machine
  nodes : List Node
deriving DecidableEq, Repr

/-- Embeds `isOneMachinePerNode` run against a stable cluster state, with the
state threaded explicitly: each iteration's two `client.List` calls read
the state and the function issues no write, so the state is returned
unchanged.  `fuel` is the iteration budget of the poll. -/
def pollOneMachineState (ns : String) : Nat → ClusterState → Bool × ClusterState
  | 0, st => (false, st)
  | fuel + 1, st =>
    if oneMachinePerNodeIter ns (some st.machines) (some st.nodes) then (true, st)
    else pollOneMachineState ns fuel st

/-!  Spec-side definitions and helper lemmas. -/

/-- Declarative form of the node map: node name to annotation-derived
machine key, later nodes shadowing earlier ones. -/
def nodeAnnMap (nodes : List Node) : List (String × String) :=
  nodes.foldl (fun a n => (n.name, (lookupAnn n.anns machineAnnotationKey).getD "") :: a) []

/-- The spec's description of one satisfied `isOneMachinePerNode`
iteration: equal counts, every node carries the machine annotation, and
every machine has a non-nil node reference whose entry in the node map
equals the machine's own `namespace/name` key. -/
def iterSatisfiedSpec (ns : String) (machines : List Machine) (nodes : List Node) : Prop :=
  machines.length = nodes.length ∧
  (∀ n ∈ nodes, ∃ v, lookupAnn n.anns machineAnnotationKey = some v) ∧
  (∀ mach ∈ machines, ∃ r, mach.statusNodeRef = some r ∧
    mapLookup (nodeAnnMap nodes) r.name = keyOf ns mach.name)

/-- Recognizes the read operation against the scale sub-resource. -/
def isGetOp : ScaleOp → Bool
  | .get _ _ => true
  | .update _ _ => false

/-- Recognizes the write operation against the scale sub-resource. -/
def isUpdateOp : ScaleOp → Bool
  | .get _ _ => false
  | .update _ _ => true

/-- The node name a machine references (zero value for a nil reference). -/
def refNameD (mach : Machine) : String :=
  match mach.statusNodeRef with
  | some r => r.name
  | none => ""

/-- Fixture for the C2 counterexample: the same machine record listed
twice. -/
def c2Machines : List Machine :=
  [{ name := "a", statusNodeRef := some { nspace := "", name := "x" } },
   { name := "a", statusNodeRef := some { nspace := "", name := "x" } }]

/-- Fixture for the C2 counterexample: node `y` carries an annotation but
is referenced by no machine. -/
def c2Nodes : List Node :=
  [{ name := "x", anns := [(machineAnnotationKey, "ns/a")], conditions := [], unschedulable := false },
   { name := "y", anns := [(machineAnnotationKey, "q")], conditions := [], unschedulable := false }]

lemma buildNodeMapAux_isSome (acc : List (String × String)) (nodes : List Node) :
    (buildNodeMapAux acc nodes).isSome = true ↔
      ∀ n ∈ nodes, ∃ v, lookupAnn n.anns machineAnnotationKey = some v := by
  induction nodes generalizing acc with
  | nil => simp [buildNodeMapAux]
  | cons n rest ih =>
    simp only [buildNodeMapAux]
    cases h : lookupAnn n.anns machineAnnotationKey with
    | none => simp [h]
    | some v => simp [h, ih]

lemma buildNodeMapAux_eq_foldl (acc : List (String × String)) (nodes : List Node)
    (h : ∀ n ∈ nodes, ∃ v, lookupAnn n.anns machineAnnotationKey = some v) :
    buildNodeMapAux acc nodes =
      some (nodes.foldl
        (fun a n => (n.name, (lookupAnn n.anns machineAnnotationKey).getD "") :: a) acc) := by
  induction nodes generalizing acc with
  | nil => simp [buildNodeMapAux]
  | cons n rest ih =>
    obtain ⟨v, hv⟩ := h n (by simp)
    simp only [buildNodeMapAux, hv, List.foldl_cons]
    rw [ih _ (fun x hx => h x (by simp [hx]))]
    simp [hv]

lemma buildNodeMap_eq_nodeAnnMap (nodes : List Node)
    (h : ∀ n ∈ nodes, ∃ v, lookupAnn n.anns machineAnnotationKey = some v) :
    buildNodeMap nodes = some (nodeAnnMap nodes) :=
  buildNodeMapAux_eq_foldl [] nodes h

lemma buildNodeMap_eq_none (nodes : List Node)
    (h : ¬ ∀ n ∈ nodes, ∃ v, lookupAnn n.anns machineAnnotationKey = some v) :
    buildNodeMap nodes = none := by
  have := (buildNodeMapAux_isSome [] nodes)
  cases hb : buildNodeMap nodes with
  | none => rfl
  | some m =>
    exact absurd (this.mp (by simp [buildNodeMap] at hb ⊢; simp [hb])) h

lemma machinesMatch_iff (ns : String) (m : List (String × String)) (l : List Machine) :
    machinesMatch ns m l = true ↔
      ∀ mach ∈ l, ∃ r, mach.statusNodeRef = some r ∧
        mapLookup m r.name = keyOf ns mach.name := by
  induction l with
  | nil => simp [machinesMatch]
  | cons mach rest ih =>
    simp only [machinesMatch]
    cases h : mach.statusNodeRef with
    | none => simp [h]
    | some r =>
      by_cases hk : mapLookup m r.name = keyOf ns mach.name
      · simp [h, hk, ih]
      · simp [h, hk]

lemma oneMachinePerNodeIter_some_some (ns : String) (machines : List Machine)
    (nodes : List Node) :
    oneMachinePerNodeIter ns (some machines) (some nodes) = true ↔
      iterSatisfiedSpec ns machines nodes := by
  have hred : oneMachinePerNodeIter ns (some machines) (some nodes) =
      (if machines.length ≠ nodes.length then false
       else
         match buildNodeMap nodes with
         | none => false
         | some m => machinesMatch ns m machines) := rfl
  rw [hred]
  unfold iterSatisfiedSpec
  by_cases hlen : machines.length = nodes.length
  · by_cases hann : ∀ n ∈ nodes, ∃ v, lookupAnn n.anns machineAnnotationKey = some v
    · rw [buildNodeMap_eq_nodeAnnMap nodes hann]
      simp only [hlen, ne_eq, not_true_eq_false, if_false, machinesMatch_iff]
      exact ⟨fun h => ⟨by trivial, hann, h⟩, fun h => h.2.2⟩
    · rw [buildNodeMap_eq_none nodes hann]
      simp [hlen, hann]
  · simp [hlen]

lemma pollImmediate_allNone {α : Type} (f : α → Bool) (l : List α) :
    (∀ e, pollImmediate (l.map (fun x => (f x, none))) ≠ .fatal e) ∧
    (pollImmediate (l.map (fun x => (f x, none))) = .success ↔ ∃ x ∈ l, f x = true) := by
  induction l with
  | nil =>
    constructor
    · intro e h
      simp [pollImmediate] at h
    · simp [pollImmediate]
  | cons a rest ih =>
    simp only [List.map_cons, pollImmediate]
    by_cases h : f a
    · simp [h]
    · simp only [h, Bool.false_eq_true, if_false]
      constructor
      · exact ih.1
      · rw [ih.2]
        simp [h]

/-- C1.  One iteration of the one-machine-per-node check reports satisfied
if and only if both lists were read successfully, the counts are equal,
every node carries the machine annotation, and every machine has a non-nil
node reference whose node-map entry equals the `namespace/machineName` key
built from the configured namespace and the machine's name; any failure
makes the whole iteration not-satisfied. -/
theorem C1_oneMachinePerNodeIter_iff (ns : String)
    (machinesRead : Option (List Machine)) (nodesRead : Option (List Node)) :
    oneMachinePerNodeIter ns machinesRead nodesRead = true ↔
      ∃ machines nodes, machinesRead = some machines ∧ nodesRead = some nodes ∧
        iterSatisfiedSpec ns machines nodes := by
  cases machinesRead with
  | none => simp [oneMachinePerNodeIter]
  | some machines =>
    cases nodesRead with
    | none => simp [oneMachinePerNodeIter]
    | some nodes =>
      rw [oneMachinePerNodeIter_some_some]
      constructor
      · intro h
        exact ⟨machines, nodes, rfl, rfl, h⟩
      · rintro ⟨m, n, hm, hn, h⟩
        cases hm
        cases hn
        exact h

/-- Witness for C1 at a concrete converged snapshot. -/
theorem C1_witness :
    oneMachinePerNodeIter "openshift-machine-api"
      (some [{ name := "m0", statusNodeRef := some { nspace := "", name := "n0" } }])
      (some [{ name := "n0", anns := [(machineAnnotationKey, "openshift-machine-api/m0")],
               conditions := [], unschedulable := false }]) = true :=
  (C1_oneMachinePerNodeIter_iff "openshift-machine-api" _ _).mpr
    ⟨_, _, rfl, rfl, by decide,
      by
        intro n hn
        rw [List.mem_singleton] at hn
        subst hn
        exact ⟨"openshift-machine-api/m0", by decide⟩,
      by
        intro mach hm
        rw [List.mem_singleton] at hm
        subst hm
        exact ⟨{ nspace := "", name := "n0" }, rfl, by decide⟩⟩

/-- C5.  The health gate over a node list is all-or-nothing: it returns
`true` iff every node is ready, it returns `true` on the empty list, and a
single not-ready node at any position makes it return `false`. -/
theorem C5_nodesAreReady_spec :
    (∀ nodes, nodesAreReady nodes = true ↔ ∀ n ∈ nodes, isNodeReady n = true) ∧
    nodesAreReady [] = true ∧
    (∀ before n after, isNodeReady n = false →
      nodesAreReady (before ++ n :: after) = false) := by
  have hiff : ∀ nodes, nodesAreReady nodes = true ↔ ∀ n ∈ nodes, isNodeReady n = true := by
    intro nodes
    induction nodes with
    | nil => simp [nodesAreReady]
    | cons n rest ih =>
      simp only [nodesAreReady]
      by_cases h : isNodeReady n
      · simp [h, ih]
      · simp [h]
  refine ⟨hiff, rfl, ?_⟩
  intro before n after h
  cases hr : nodesAreReady (before ++ n :: after) with
  | false => rfl
  | true =>
    have := (hiff _).mp hr n (by simp)
    rw [h] at this
    cases this

/-- Witness for C5: a single not-ready node (only node, hence also first
and last) makes the gate fail. -/
theorem C5_witness :
    nodesAreReady [{ name := "n0", anns := [], conditions := [], unschedulable := false }]
      = false :=
  C5_nodesAreReady_spec.2.2 [] _ [] (by decide)

/-- C7.  In `deleteMachine` a failed delete call is fatal to the enclosing
poll: the error is propagated immediately, whatever poll budget remains is
never consumed, and the poll returns success only when a delete call
succeeded (necessarily the first one, since a successful call also ends
the poll). -/
theorem C7_deleteMachine_fatal :
    (∀ e rest, deleteMachine (some e :: rest) = some e) ∧
    (∀ rest, deleteMachine (none :: rest) = none) ∧
    (∀ ticks, deleteMachine ticks = none → ∃ rest, ticks = none :: rest) := by
  refine ⟨fun e rest => rfl, fun rest => rfl, ?_⟩
  intro ticks h
  cases ticks with
  | nil => simp [deleteMachine, pollImmediate] at h
  | cons r rest =>
    cases r with
    | none => exact ⟨rest, rfl⟩
    | some e => simp [deleteMachine, pollImmediate, deleteMachinePred] at h

/-- Witness for C7: a successful first delete ends the poll with `nil`,
and success implies the first call succeeded. -/
theorem C7_witness :
    deleteMachine [none] = none ∧ ∃ rest, ([none] : List (Option String)) = none :: rest :=
  ⟨C7_deleteMachine_fatal.2.1 [], C7_deleteMachine_fatal.2.2 [none] (C7_deleteMachine_fatal.2.1 [])⟩

/-- C9.  `isOneMachinePerNode` never propagates an error: its poll
predicate never returns a fatal error (so the poll outcome is collapsed to
a bare boolean), and the function returns `true` exactly when some
iteration within the deadline fully satisfied the bidirectional check. -/
theorem C9_isOneMachinePerNode_total (ns : String) (ticks : List OMTick) :
    (∀ e, pollImmediate (ticks.map (oneMachinePerNodePred ns)) ≠ .fatal e) ∧
    (isOneMachinePerNode ns ticks = true ↔
      ∃ t ∈ ticks, oneMachinePerNodeIter ns t.1 t.2 = true) := by
  have hall := pollImmediate_allNone (fun t => oneMachinePerNodeIter ns t.1 t.2) ticks
  have heq : ticks.map (oneMachinePerNodePred ns) =
      ticks.map (fun t => (oneMachinePerNodeIter ns t.1 t.2, none)) := rfl
  have hres : isOneMachinePerNode ns ticks = true ↔
      pollImmediate (ticks.map (oneMachinePerNodePred ns)) = .success := by
    unfold isOneMachinePerNode
    cases hp : pollImmediate (ticks.map (oneMachinePerNodePred ns)) <;> simp
  rw [heq]
  refine ⟨hall.1, ?_⟩
  rw [hres, heq]
  exact hall.2

/-- Witness for C9: one converged iteration makes the check return
`true`. -/
theorem C9_witness : isOneMachinePerNode "ns" [(some [], some [])] = true :=
  (C9_isOneMachinePerNode_total "ns" [(some [], some [])]).2.mpr
    ⟨(some [], some []), by simp, by decide⟩

lemma pollImmediate_cons_falseNone (l : List (Bool × Option String)) :
    pollImmediate ((false, none) :: l) = pollImmediate l := by
  simp [pollImmediate]

lemma wFCS_cons_skip (t : SizeTick) (rest : List SizeTick) (readyResult : Option String)
    (schedTicks : List (Except String (List Node))) (omNs : String) (omTicks : List OMTick)
    (targetSize : Nat) (h : sizeTickPred targetSize t = (false, none)) :
    waitForClusterSizeToBeHealthy (t :: rest) readyResult schedTicks omNs omTicks targetSize =
      waitForClusterSizeToBeHealthy rest readyResult schedTicks omNs omTicks targetSize := by
  unfold waitForClusterSizeToBeHealthy
  rw [List.map_cons, h, pollImmediate_cons_falseNone]

/-- C3.  `waitForClusterSizeToBeHealthy` runs its stages in strict order:
within each size-poll iteration the machine-set snapshot precedes the node
snapshot, which precedes the node-count read (a snapshot failure decides
the iteration before the count is even consulted); the size poll gates the
readiness wait, which gates the schedulability wait, which gates the
one-machine-per-node check; every stage failure produces that stage's
specific error, and the call succeeds only when all stages succeed. -/
theorem C3_waitForClusterSize_stages (sizeTicks : List SizeTick) (readyResult : Option String)
    (schedTicks : List (Except String (List Node))) (omNs : String) (omTicks : List OMTick)
    (targetSize : Nat) :
    (∀ t e, machineSetsSnapShotLogs t.msRead = some e →
      sizeTickPred targetSize t = (false, some e)) ∧
    (∀ t e, machineSetsSnapShotLogs t.msRead = none →
      nodesSnapShotLogs t.nodesRead = some e →
      sizeTickPred targetSize t = (false, some e)) ∧
    (∀ e, pollImmediate (sizeTicks.map (sizeTickPred targetSize)) = .fatal e →
      waitForClusterSizeToBeHealthy sizeTicks readyResult schedTicks omNs omTicks targetSize
        = some ("Did not reach expected number of nodes: " ++ e)) ∧
    (pollImmediate (sizeTicks.map (sizeTickPred targetSize)) = .timeout →
      waitForClusterSizeToBeHealthy sizeTicks readyResult schedTicks omNs omTicks targetSize
        = some ("Did not reach expected number of nodes: " ++ timeoutMsg)) ∧
    (∀ e, pollImmediate (sizeTicks.map (sizeTickPred targetSize)) = .success →
      readyResult = some e →
      waitForClusterSizeToBeHealthy sizeTicks readyResult schedTicks omNs omTicks targetSize
        = some e) ∧
    (∀ e, pollImmediate (sizeTicks.map (sizeTickPred targetSize)) = .success →
      readyResult = none → waitUntilAllNodesAreSchedulable schedTicks = some e →
      waitForClusterSizeToBeHealthy sizeTicks readyResult schedTicks omNs omTicks targetSize
        = some e) ∧
    (pollImmediate (sizeTicks.map (sizeTickPred targetSize)) = .success →
      readyResult = none → waitUntilAllNodesAreSchedulable schedTicks = none →
      isOneMachinePerNode omNs omTicks = false →
      waitForClusterSizeToBeHealthy sizeTicks readyResult schedTicks omNs omTicks targetSize
        = some "One machine per node condition violated") ∧
    (pollImmediate (sizeTicks.map (sizeTickPred targetSize)) = .success →
      readyResult = none → waitUntilAllNodesAreSchedulable schedTicks = none →
      isOneMachinePerNode omNs omTicks = true →
      waitForClusterSizeToBeHealthy sizeTicks readyResult schedTicks omNs omTicks targetSize
        = none) := by
  refine ⟨?_, ?_, ?_, ?_, ?_, ?_, ?_, ?_⟩
  · intro t e h
    simp [sizeTickPred, h]
  · intro t e h1 h2
    simp [sizeTickPred, h1, h2]
  · intro e h
    simp [waitForClusterSizeToBeHealthy, h]
  · intro h
    simp [waitForClusterSizeToBeHealthy, h]
  · intro e hp hr
    simp [waitForClusterSizeToBeHealthy, hp, hr]
  · intro e hp hr hs
    simp [waitForClusterSizeToBeHealthy, hp, hr, hs]
  · intro hp hr hs hom
    simp [waitForClusterSizeToBeHealthy, hp, hr, hs, hom]
  · intro hp hr hs hom
    simp [waitForClusterSizeToBeHealthy, hp, hr, hs, hom]

/-- Witness for C3: an environment where every stage succeeds makes the
whole call return success. -/
theorem C3_witness :
    waitForClusterSizeToBeHealthy
      [{ msRead := .ok [], nodesRead := .ok [],
         sizeRead := .ok [{ name := "n0", anns := [], conditions := [], unschedulable := false }] }]
      none [.ok []] "ns" [(some [], some [])] 1 = none :=
  (C3_waitForClusterSize_stages _ _ _ _ _ _).2.2.2.2.2.2.2
    (by decide) rfl (by decide) (by decide)

/-- C4 counterexample.  The claim says a machine-set read failure during
the size poll is retried on the next interval; in the code it is returned
as a fatal poll error and aborts the whole call at once.  Here the second
iteration would have reached the target size, yet the call fails
immediately with the wrapped read error — neither success nor a timeout
error. -/
theorem C4_counterexample :
    waitForClusterSizeToBeHealthy
      [{ msRead := .error "boom", nodesRead := .ok [], sizeRead := .ok [] },
       { msRead := .ok [], nodesRead := .ok [],
         sizeRead := .ok [{ name := "n0", anns := [], conditions := [], unschedulable := false }] }]
      none [.ok []] "ns" [(some [], some [])] 1
      = some "Did not reach expected number of nodes: error getting machines: boom" ∧
    waitForClusterSizeToBeHealthy
      [{ msRead := .error "boom", nodesRead := .ok [], sizeRead := .ok [] },
       { msRead := .ok [], nodesRead := .ok [],
         sizeRead := .ok [{ name := "n0", anns := [], conditions := [], unschedulable := false }] }]
      none [.ok []] "ns" [(some [], some [])] 1
      ≠ some ("Did not reach expected number of nodes: " ++ timeoutMsg) := by
  exact ⟨by decide, by decide⟩

/-- C4 (amended).  During the size-polling stage a failing read — the
machine-set list, the node list, or the node-count read — aborts the poll
immediately with that error wrapped in the size-stage message, bypassing
the remaining budget; only a successful iteration whose node count differs
from the target is treated as not-yet and retried, so against a cluster
whose reads always succeed but whose size never reaches the target the
call fails exactly with the wrapped timeout error once the budget is
exhausted. -/
theorem C4_sizePoll_errors_fatal (readyResult : Option String)
    (schedTicks : List (Except String (List Node))) (omNs : String) (omTicks : List OMTick)
    (targetSize : Nat) :
    (∀ t rest e, machineSetsSnapShotLogs t.msRead = some e →
      waitForClusterSizeToBeHealthy (t :: rest) readyResult schedTicks omNs omTicks targetSize
        = some ("Did not reach expected number of nodes: " ++ e)) ∧
    (∀ t rest e, machineSetsSnapShotLogs t.msRead = none →
      nodesSnapShotLogs t.nodesRead = some e →
      waitForClusterSizeToBeHealthy (t :: rest) readyResult schedTicks omNs omTicks targetSize
        = some ("Did not reach expected number of nodes: " ++ e)) ∧
    (∀ t rest e, machineSetsSnapShotLogs t.msRead = none →
      nodesSnapShotLogs t.nodesRead = none → getClusterSize t.sizeRead = .error e →
      waitForClusterSizeToBeHealthy (t :: rest) readyResult schedTicks omNs omTicks targetSize
        = some ("Did not reach expected number of nodes: " ++ e)) ∧
    (∀ sizeTicks : List SizeTick,
      (∀ t ∈ sizeTicks, machineSetsSnapShotLogs t.msRead = none ∧
        nodesSnapShotLogs t.nodesRead = none ∧
        ∃ nl, t.sizeRead = .ok nl ∧ nl.length ≠ targetSize) →
      waitForClusterSizeToBeHealthy sizeTicks readyResult schedTicks omNs omTicks targetSize
        = some ("Did not reach expected number of nodes: " ++ timeoutMsg)) := by
  refine ⟨?_, ?_, ?_, ?_⟩
  · intro t rest e h
    have hpred : sizeTickPred targetSize t = (false, some e) := by
      simp [sizeTickPred, h]
    unfold waitForClusterSizeToBeHealthy
    rw [List.map_cons, hpred]
    rfl
  · intro t rest e h1 h2
    have hpred : sizeTickPred targetSize t = (false, some e) := by
      simp [sizeTickPred, h1, h2]
    unfold waitForClusterSizeToBeHealthy
    rw [List.map_cons, hpred]
    rfl
  · intro t rest e h1 h2 h3
    have hpred : sizeTickPred targetSize t = (false, some e) := by
      simp [sizeTickPred, h1, h2, h3]
    unfold waitForClusterSizeToBeHealthy
    rw [List.map_cons, hpred]
    rfl
  · intro sizeTicks hall
    induction sizeTicks with
    | nil => simp [waitForClusterSizeToBeHealthy, pollImmediate]
    | cons t rest ih =>
      obtain ⟨h1, h2, nl, h3, h4⟩ := hall t (by simp)
      have hpred : sizeTickPred targetSize t = (false, none) := by
        simp [sizeTickPred, h1, h2, getClusterSize, h3, h4]
      rw [wFCS_cons_skip t rest readyResult schedTicks omNs omTicks targetSize hpred]
      exact ih (fun x hx => hall x (by simp [hx]))

/-- Witness for C4 (amended): two all-reads-succeed iterations that never
reach the target make the call fail with the wrapped timeout error. -/
theorem C4_witness :
    waitForClusterSizeToBeHealthy
      [{ msRead := .ok [], nodesRead := .ok [], sizeRead := .ok [] },
       { msRead := .ok [], nodesRead := .ok [], sizeRead := .ok [] }]
      none [.ok []] "ns" [(some [], some [])] 5
      = some ("Did not reach expected number of nodes: " ++ timeoutMsg) :=
  (C4_sizePoll_errors_fatal none [.ok []] "ns" [(some [], some [])] 5).2.2.2 _
    (by
      intro t ht
      rw [List.mem_cons, List.mem_singleton] at ht
      rcases ht with h | h <;> subst h <;> exact ⟨rfl, rfl, [], rfl, by decide⟩)

/-- C6.  On the success path `scaleMachineSet` issues exactly one get and
one update against the machine-set's scale sub-resource, in that order,
and the object it writes is the object it read with only the desired
replica count changed: every other field of the scale sub-resource is
written back unchanged. -/
theorem C6_scaleMachineSet_frame (name : String) (replicas : Int) (sc u : Scale) :
    scaleMachineSet (.ok ()) (.ok sc) (.ok u) name replicas
      = (none, [.get "MachineSet" name,
                .update "MachineSet" { sc with specReplicas := int32ofInt replicas }]) ∧
    ((scaleMachineSet (.ok ()) (.ok sc) (.ok u) name replicas).2.filter isGetOp).length = 1 ∧
    ((scaleMachineSet (.ok ()) (.ok sc) (.ok u) name replicas).2.filter isUpdateOp).length = 1 ∧
    (∀ res s, .update res s ∈ (scaleMachineSet (.ok ()) (.ok sc) (.ok u) name replicas).2 →
      s.name = sc.name ∧ s.nspace = sc.nspace ∧ s.resourceVersion = sc.resourceVersion ∧
      s.statusReplicas = sc.statusReplicas ∧ s.statusSelector = sc.statusSelector ∧
      s.specReplicas = int32ofInt replicas) := by
  refine ⟨rfl, rfl, rfl, ?_⟩
  intro res s hs
  simp only [scaleMachineSet, List.mem_cons, List.mem_singleton] at hs
  rcases hs with h | h | h
  · cases h
  · cases h
    exact ⟨rfl, rfl, rfl, rfl, rfl, rfl⟩
  · cases h

/-- Witness for C6 at a concrete scale sub-resource. -/
theorem C6_witness :
    scaleMachineSet (.ok ()) (.ok (Scale.mk "workers" "ns" "7" 2 2 "sel"))
      (.ok (Scale.mk "workers" "ns" "8" 4 2 "sel")) "workers" 4
      = (none, [.get "MachineSet" "workers",
                .update "MachineSet" (Scale.mk "workers" "ns" "7" (int32ofInt 4) 2 "sel")]) :=
  (C6_scaleMachineSet_frame "workers" 4 (Scale.mk "workers" "ns" "7" 2 2 "sel")
    (Scale.mk "workers" "ns" "8" 4 2 "sel")).1

/-- C8.  Against a converged, unchanged cluster state the one-machine-per-
node check is idempotent: both the first and a second invocation on the
state the first returned yield `true`, and neither invocation changes the
machine or node state (the code only issues list reads). -/
theorem C8_pollOneMachineState_idempotent (ns : String) (st : ClusterState) (fuel : Nat)
    (hfuel : 0 < fuel)
    (hconv : oneMachinePerNodeIter ns (some st.machines) (some st.nodes) = true) :
    pollOneMachineState ns fuel st = (true, st) ∧
    pollOneMachineState ns fuel (pollOneMachineState ns fuel st).2 = (true, st) := by
  cases fuel with
  | zero => cases hfuel
  | succ n =>
    have h1 : pollOneMachineState ns (n + 1) st = (true, st) := by
      simp [pollOneMachineState, hconv]
    refine ⟨h1, ?_⟩
    rw [h1]
    exact h1

/-- Witness for C8 at a concrete converged state. -/
theorem C8_witness :
    pollOneMachineState "pre" 2
        { machines := [{ name := "m1", statusNodeRef := some { nspace := "", name := "node1" } }],
          nodes := [{ name := "node1", anns := [(machineAnnotationKey, "pre/m1")],
                      conditions := [], unschedulable := false }] }
      = (true,
        { machines := [{ name := "m1", statusNodeRef := some { nspace := "", name := "node1" } }],
          nodes := [{ name := "node1", anns := [(machineAnnotationKey, "pre/m1")],
                      conditions := [], unschedulable := false }] }) :=
  (C8_pollOneMachineState_idempotent "pre" _ 2 (by decide) (by decide)).1

/-- C10.  `getMachineFromNode` has a third failure condition: even when
the node's machine annotation decodes to a well-formed namespace/name
pair, a decoded namespace different from the configured machine-API
namespace is an error returned before any machine lookup is attempted;
the machine lookup is only ever reached with the configured namespace. -/
theorem C10_getMachineFromNode_namespaceGate (cfgNs : String)
    (getMachineR : String → Except String Machine) (node : Node) :
    (∀ key nsp mname, lookupAnn node.anns machineAnnotationKey = some key →
      splitMetaNamespaceKey key = .ok (nsp, mname) → nsp ≠ cfgNs →
      getMachineFromNode cfgNs getMachineR node
        = (.error ("Machine " ++ key ++ " is forbidden to live outside of default "
            ++ cfgNs ++ " namespace"), false)) ∧
    ((getMachineFromNode cfgNs getMachineR node).2 = true →
      ∃ key nsp mname, lookupAnn node.anns machineAnnotationKey = some key ∧
        splitMetaNamespaceKey key = .ok (nsp, mname) ∧ nsp = cfgNs) := by
  constructor
  · intro key nsp mname h1 h2 h3
    simp [getMachineFromNode, h1, h2, h3]
  · intro h
    cases ha : lookupAnn node.anns machineAnnotationKey with
    | none => simp [getMachineFromNode, ha] at h
    | some key =>
      cases hs : splitMetaNamespaceKey key with
      | error e => simp [getMachineFromNode, ha, hs] at h
      | ok p =>
        obtain ⟨nsp, mname⟩ := p
        by_cases hn : nsp = cfgNs
        · exact ⟨key, nsp, mname, rfl, hs, hn⟩
        · simp [getMachineFromNode, ha, hs, hn] at h

/-- Witness for C10: an annotation in a foreign namespace is rejected
without a machine lookup. -/
theorem C10_witness :
    getMachineFromNode "cfg" (fun _ => .error "nope")
        { name := "n0", anns := [(machineAnnotationKey, "other/m1")],
          conditions := [], unschedulable := false }
      = (.error "Machine other/m1 is forbidden to live outside of default cfg namespace",
         false) := by
  have h := (C10_getMachineFromNode_namespaceGate "cfg" (fun _ => .error "nope")
      { name := "n0", anns := [(machineAnnotationKey, "other/m1")],
        conditions := [], unschedulable := false }).1
    "other/m1" "other" "m1" (by decide) (by decide) (by decide)
  exact h

lemma keyOf_inj (ns a b : String) (h : keyOf ns a = keyOf ns b) : a = b := by
  unfold keyOf at h
  have hd : (ns ++ "/" ++ a).data = (ns ++ "/" ++ b).data := by rw [h]
  rw [String.data_append, String.data_append] at hd
  exact String.ext (List.append_cancel_left hd)

lemma keyOf_ne_empty (ns a : String) : keyOf ns a ≠ "" := by
  intro h
  have hd : (keyOf ns a).data = [] := by rw [h]
  unfold keyOf at hd
  rw [String.data_append, String.data_append] at hd
  have h1 := (List.append_eq_nil.mp hd).1
  have h2 := (List.append_eq_nil.mp h1).2
  rw [show ("/" : String).data = ['/'] from rfl] at h2
  cases h2

lemma mapLookup_mem (m : List (String × String)) (k : String) (h : mapLookup m k ≠ "") :
    k ∈ m.map Prod.fst := by
  unfold mapLookup at h
  cases hf : m.find? (fun p => p.1 == k) with
  | none => rw [hf] at h; simp at h
  | some p =>
    have hk : p.1 = k := by simpa using List.find?_some hf
    have hm : p ∈ m := List.mem_of_find?_eq_some hf
    exact hk ▸ List.mem_map_of_mem Prod.fst hm

lemma buildNodeMapAux_keys (nodes : List Node) :
    ∀ acc m, buildNodeMapAux acc nodes = some m →
      ∀ p ∈ m, p ∈ acc ∨ p.1 ∈ nodes.map Node.name := by
  induction nodes with
  | nil =>
    intro acc m h p hp
    simp only [buildNodeMapAux, Option.some_inj] at h
    exact .inl (h ▸ hp)
  | cons n rest ih =>
    intro acc m h p hp
    cases hl : lookupAnn n.anns machineAnnotationKey with
    | none => simp [buildNodeMapAux, hl] at h
    | some v =>
      simp only [buildNodeMapAux, hl] at h
      rcases ih _ _ h p hp with hacc | hname
      · rcases List.mem_cons.mp hacc with he | hacc'
        · exact .inr (by simp [he])
        · exact .inl hacc'
      · exact .inr (by simp [hname])

/-- C2 counterexample.  The claim promises a bijection at every satisfied
iteration, with no assumption on the machine list; with the same machine
record listed twice the iteration is satisfied (counts 2 = 2, both entries
pass the map check), yet node `y` is referenced by no machine at all: the
correspondence is not onto the node list. -/
theorem C2_counterexample :
    oneMachinePerNodeIter "ns" (some c2Machines) (some c2Nodes) = true ∧
    ¬ (∀ nd ∈ c2Nodes, ∃ mach ∈ c2Machines, ∃ r,
        mach.statusNodeRef = some r ∧ r.name = nd.name) := by
  constructor
  · decide
  · intro hall
    obtain ⟨mach, hmem, r, hr, hname⟩ := hall
      { name := "y", anns := [(machineAnnotationKey, "q")], conditions := [], unschedulable := false }
      (by simp [c2Nodes])
    have hm : mach = { name := "a", statusNodeRef := some { nspace := "", name := "x" } } := by
      simp only [c2Machines, List.mem_cons, List.mem_singleton, List.not_mem_nil, or_false] at hmem
      rcases hmem with h | h <;> exact h
    subst hm
    simp only [Machine.statusNodeRef] at hr
    injection hr with hr'
    rw [← hr'] at hname
    simp only [NodeRef.name] at hname
    exact absurd hname (by decide)

/-- C2 (amended).  Whenever an iteration reports satisfied AND the listed
machines carry pairwise-distinct names (true of any real Kubernetes list,
where name is the identity within a namespace), the machine-to-node
correspondence is a bijection: machines referencing the same node name are
equal (one node's single annotation value cannot equal two different
machines' namespace/name keys), and with the equal-count precondition
every node's name is referenced by a machine. -/
theorem C2_oneMachinePerNode_bijection (ns : String) (machines : List Machine)
    (nodes : List Node)
    (hsat : oneMachinePerNodeIter ns (some machines) (some nodes) = true)
    (hnod : (machines.map Machine.name).Nodup) :
    (∀ m1 ∈ machines, ∀ m2 ∈ machines, ∀ r1 r2,
      m1.statusNodeRef = some r1 → m2.statusNodeRef = some r2 →
      r1.name = r2.name → m1 = m2) ∧
    (∀ nd ∈ nodes, ∃ mach ∈ machines, ∃ r,
      mach.statusNodeRef = some r ∧ r.name = nd.name) := by
  rw [oneMachinePerNodeIter_some_some] at hsat
  obtain ⟨hlen, hann, hmach⟩ := hsat
  constructor
  · intro m1 h1 m2 h2 r1 r2 hr1 hr2 hname
    obtain ⟨r1', hr1', hl1⟩ := hmach m1 h1
    obtain ⟨r2', hr2', hl2⟩ := hmach m2 h2
    rw [hr1] at hr1'
    rw [hr2] at hr2'
    injection hr1' with e1
    injection hr2' with e2
    subst e1
    subst e2
    have hk : keyOf ns m1.name = keyOf ns m2.name := by
      rw [← hl1, ← hl2, hname]
    exact List.inj_on_of_nodup_map hnod h1 h2 (keyOf_inj ns _ _ hk)
  · have hLsub : ∀ s ∈ machines.map refNameD, s ∈ nodes.map Node.name := by
      intro s hs
      obtain ⟨mach, hmem, hrfl⟩ := List.mem_map.mp hs
      obtain ⟨r, hr, hl⟩ := hmach mach hmem
      have hrname : refNameD mach = r.name := by simp [refNameD, hr]
      have hne : mapLookup (nodeAnnMap nodes) r.name ≠ "" := by
        rw [hl]
        exact keyOf_ne_empty ns mach.name
      have hkey := mapLookup_mem _ _ hne
      obtain ⟨p, hp, hfst⟩ := List.mem_map.mp hkey
      rcases buildNodeMapAux_keys nodes [] _ (buildNodeMap_eq_nodeAnnMap nodes hann) p hp with
        h0 | hn
      · cases h0
      · rw [← hrfl, hrname, ← hfst]
        exact hn
    have hmnodup : machines.Nodup := List.Nodup.of_map Machine.name hnod
    have hLnodup : (machines.map refNameD).Nodup := by
      refine List.Nodup.map_on ?_ hmnodup
      intro x hx y hy hxy
      obtain ⟨rx, hrx, hlx⟩ := hmach x hx
      obtain ⟨ry, hry, hly⟩ := hmach y hy
      have hx' : refNameD x = rx.name := by simp [refNameD, hrx]
      have hy' : refNameD y = ry.name := by simp [refNameD, hry]
      have hk : keyOf ns x.name = keyOf ns y.name := by
        rw [← hlx, ← hly, ← hx', ← hy', hxy]
      exact List.inj_on_of_nodup_map hnod hx hy (keyOf_inj ns _ _ hk)
    have hsubset : (machines.map refNameD).toFinset ⊆ (nodes.map Node.name).toFinset := by
      intro s hs
      rw [List.mem_toFinset] at hs ⊢
      exact hLsub s hs
    have heq : (machines.map refNameD).toFinset = (nodes.map Node.name).toFinset := by
      apply Finset.eq_of_subset_of_card_le hsubset
      rw [List.toFinset_card_of_nodup hLnodup]
      calc (nodes.map Node.name).toFinset.card ≤ (nodes.map Node.name).length :=
            List.toFinset_card_le (nodes.map Node.name)
        _ = (machines.map refNameD).length := by simp [hlen]
    intro nd hnd
    have hmem : nd.name ∈ (machines.map refNameD).toFinset := by
      rw [heq, List.mem_toFinset]
      exact List.mem_map_of_mem Node.name hnd
    rw [List.mem_toFinset, List.mem_map] at hmem
    obtain ⟨mach, hmem', hrfl⟩ := hmem
    obtain ⟨r, hr, _⟩ := hmach mach hmem'
    refine ⟨mach, hmem', r, hr, ?_⟩
    rw [← hrfl]
    simp [refNameD, hr]

/-- Witness for C2 (amended) at a concrete one-machine, one-node converged
snapshot. -/
theorem C2_witness :
    (∀ m1 ∈ [Machine.mk "a" (some (NodeRef.mk "" "x"))],
      ∀ m2 ∈ [Machine.mk "a" (some (NodeRef.mk "" "x"))], ∀ r1 r2,
      m1.statusNodeRef = some r1 → m2.statusNodeRef = some r2 →
      r1.name = r2.name → m1 = m2) ∧
    (∀ nd ∈ [Node.mk "x" [(machineAnnotationKey, "ns/a")] [] false],
      ∃ mach ∈ [Machine.mk "a" (some (NodeRef.mk "" "x"))], ∃ r,
        mach.statusNodeRef = some r ∧ r.name = nd.name) :=
  C2_oneMachinePerNode_bijection "ns" _ _ (by decide) (by decide)
